import Mathlib

set_option linter.unusedVariables false

/-!
Shallow embedding of `src/TokenBucketAlgorithm/TokenBucketAlgorithm.cpp`
(class `TokenBucket`): a token-bucket rate limiter with an `int` capacity
`max_counter_`, a current token count `counter_`, a stop flag `exit_`, and
a background refill thread parameterised by `refillFrequencySeconds`.
All accesses to `counter_` in the C++ code happen under `counter_mutex_`,
so each operation is modelled as an atomic transition on the state.
-/

/-- State of a `TokenBucket` object.  `max_counter_` and `counter_` are the
`int` members of the C++ class; `refillFrequencySeconds` models the constructor
argument captured by the `refiller_` thread; `exit_` is the stop flag set by
the destructor.  C++ `int` is embedded as `Int` (signed overflow is undefined
behaviour in C++, so no wrap-around is modelled). -/
structure TokenBucket where
  max_counter_ : Int
  counter_ : Int
  refillFrequencySeconds : Int
  exit_ : Bool
deriving DecidableEq

/-- Embeds `TokenBucket::TokenBucket(int size, int refillFrequencySeconds)`:
`max_counter_(size), counter_(size)`, starts the refill thread bound to
`refillFrequencySeconds`; `exit_` has its in-class initializer `false`.
The constructor performs no validation of its arguments. -/
def TokenBucket.new (size refillFrequencySeconds : Int) : TokenBucket :=
  { max_counter_ := size
    counter_ := size
    refillFrequencySeconds := refillFrequencySeconds
    exit_ := false }

/-- Embeds `bool TokenBucket::request()`: under the lock, if `counter_ != 0`
then decrement `counter_` and return `true`, else return `false`.
Returns the result together with the post-state. -/
def TokenBucket.request (b : TokenBucket) : Bool × TokenBucket :=
  if b.counter_ ≠ 0 then
    (true, { b with counter_ := b.counter_ - 1 })
  else
    (false, b)

/-- One iteration of the loop in `void TokenBucket::refill(int)`: under the
lock, if `exit_` is already set, or the timed wait on `condition_variable_`
ends with the predicate `exit_` true, the thread returns (`none`); otherwise
the period elapsed without a stop signal and `counter_ = max_counter_;` is
executed (`some` of the post-state), after which the loop repeats. -/
def TokenBucket.refillStep (b : TokenBucket) : Option TokenBucket :=
  if b.exit_ then none
  else some { b with counter_ := b.max_counter_ }

/-- Embeds the first half of `TokenBucket::~TokenBucket()`: under the lock,
set `exit_ = true` (the destructor then notifies the condition variable and
joins the refill thread). -/
def TokenBucket.signalStop (b : TokenBucket) : TokenBucket :=
  { b with exit_ := true }

/-- A sequence of `n` consecutive `request()` calls with no intervening
refill: the list of returned booleans, in call order, and the final state. -/
def TokenBucket.requestN : TokenBucket → Nat → List Bool × TokenBucket
  | b, 0 => ([], b)
  | b, k + 1 =>
    let p := b.request
    let q := p.2.requestN k
    (p.1 :: q.1, q.2)

/-- The state invariant claimed by the spec: the token count stays between
zero and the capacity. -/
abbrev TokenBucket.Inv (b : TokenBucket) : Prop :=
  0 ≤ b.counter_ ∧ b.counter_ ≤ b.max_counter_

section Lemmas

/-- As long as the token count is at least `k`, `k` consecutive requests all
succeed and each decrements the count by one. -/
lemma TokenBucket.requestN_of_le (k : Nat) :
    ∀ b : TokenBucket, (k : Int) ≤ b.counter_ →
      b.requestN k = (List.replicate k true, { b with counter_ := b.counter_ - k }) := by
  induction k with
  | zero =>
    intro b _
    simp [TokenBucket.requestN]
  | succ k ih =>
    intro b hk
    have hne : b.counter_ ≠ 0 := by
      intro h
      rw [h] at hk
      omega
    have hstep : b.request = (true, { b with counter_ := b.counter_ - 1 }) := by
      simp [TokenBucket.request, hne]
    have hk' : (k : Int) ≤ b.counter_ - 1 := by push_cast at hk ⊢; omega
    have ih' := ih { b with counter_ := b.counter_ - 1 } hk'
    simp only [TokenBucket.requestN, hstep, ih', Prod.mk.injEq]
    refine ⟨(List.replicate_succ true k).symm, ?_⟩
    simp only [TokenBucket.mk.injEq, eq_self_iff_true, true_and, and_true]
    push_cast
    ring

/-- With the token count at zero, every request fails and the state is
unchanged. -/
lemma TokenBucket.requestN_of_zero (k : Nat) :
    ∀ b : TokenBucket, b.counter_ = 0 →
      b.requestN k = (List.replicate k false, b) := by
  induction k with
  | zero =>
    intro b _
    simp [TokenBucket.requestN]
  | succ k ih =>
    intro b h0
    have hstep : b.request = (false, b) := by
      simp [TokenBucket.request, h0]
    simp only [TokenBucket.requestN, hstep, ih b h0, Prod.mk.injEq]
    simp [List.replicate_succ]

/-- With a negative token count, every request succeeds (the guard is
`counter_ != 0`) and each call decrements the count further below zero. -/
lemma TokenBucket.requestN_of_neg (k : Nat) :
    ∀ b : TokenBucket, b.counter_ < 0 →
      b.requestN k = (List.replicate k true, { b with counter_ := b.counter_ - k }) := by
  induction k with
  | zero =>
    intro b _
    simp [TokenBucket.requestN]
  | succ k ih =>
    intro b hneg
    have hne : b.counter_ ≠ 0 := by omega
    have hstep : b.request = (true, { b with counter_ := b.counter_ - 1 }) := by
      simp [TokenBucket.request, hne]
    have hneg' : ({ b with counter_ := b.counter_ - 1 } : TokenBucket).counter_ < 0 := by
      simpa using by omega
    have ih' := ih { b with counter_ := b.counter_ - 1 } hneg'
    simp only [TokenBucket.requestN, hstep, ih', Prod.mk.injEq]
    refine ⟨(List.replicate_succ true k).symm, ?_⟩
    simp only [TokenBucket.mk.injEq, eq_self_iff_true, true_and, and_true]
    push_cast
    ring

/-- The number of `true` results in any request sequence is bounded by the
initial token count. -/
lemma TokenBucket.count_true_requestN_le (k : Nat) :
    ∀ b : TokenBucket, 0 ≤ b.counter_ →
      (((b.requestN k).1.count true : Int)) ≤ b.counter_ := by
  induction k with
  | zero =>
    intro b h
    simpa [TokenBucket.requestN] using h
  | succ k ih =>
    intro b h
    rcases eq_or_lt_of_le h with h0 | hpos
    · have hstep : b.request = (false, b) := by
        simp [TokenBucket.request, h0.symm]
      have ihb := ih b h
      simp only [TokenBucket.requestN, hstep, List.count_cons]
      simpa using ihb
    · have hne : b.counter_ ≠ 0 := by omega
      have hstep : b.request = (true, { b with counter_ := b.counter_ - 1 }) := by
        simp [TokenBucket.request, hne]
      have h' : (0 : Int) ≤ ({ b with counter_ := b.counter_ - 1 } : TokenBucket).counter_ := by
        simpa using by omega
      have ihb := ih { b with counter_ := b.counter_ - 1 } h'
      have ihb' : ((({ b with counter_ := b.counter_ - 1 } : TokenBucket).requestN k).1.count true : Int)
          ≤ b.counter_ - 1 := by simpa using ihb
      simp only [TokenBucket.requestN, hstep, List.count_cons]
      push_cast
      simp only [beq_self_eq_true, if_true]
      omega

/-- Splitting a request sequence: the first `j` calls happen first, then the
remaining `k` calls continue from the intermediate state. -/
lemma TokenBucket.requestN_add (j k : Nat) :
    ∀ b : TokenBucket,
      b.requestN (j + k)
        = ((b.requestN j).1 ++ ((b.requestN j).2.requestN k).1,
           ((b.requestN j).2.requestN k).2) := by
  induction j with
  | zero =>
    intro b
    simp [TokenBucket.requestN]
  | succ j ih =>
    intro b
    have hjk : j + 1 + k = (j + k) + 1 := by omega
    rw [hjk]
    simp only [TokenBucket.requestN, ih, List.cons_append]

/-- Exhausting a bucket: from a state holding exactly `n` tokens, `n + 1`
consecutive requests return `n` times `true` followed by one `false`, and
leave the count at zero. -/
lemma TokenBucket.exhaust_pattern (b : TokenBucket) (n : Nat) (hc : b.counter_ = n) :
    b.requestN (n + 1) = (List.replicate n true ++ [false], { b with counter_ := 0 }) := by
  have h1 := TokenBucket.requestN_of_le n b (by rw [hc])
  have he : ({ b with counter_ := b.counter_ - n } : TokenBucket)
      = { b with counter_ := 0 } := by
    simp only [TokenBucket.mk.injEq, eq_self_iff_true, true_and, and_true]
    omega
  rw [TokenBucket.requestN_add n 1, h1, he,
    TokenBucket.requestN_of_zero 1 ({ b with counter_ := 0 } : TokenBucket) rfl]
  simp

end Lemmas

/-- C1: For a bucket state with positive capacity and a token count between
zero and the capacity, `request` returns `true` and decrements the count by
exactly one when the count is positive, and returns `false` leaving the state
unchanged when the count is zero; it is a total function returning a boolean
in every case. -/
theorem C1_request_basic (b : TokenBucket)
    (hcap : 0 < b.max_counter_) (h0 : 0 ≤ b.counter_)
    (h1 : b.counter_ ≤ b.max_counter_) :
    (0 < b.counter_ →
      b.request = (true, { b with counter_ := b.counter_ - 1 })) ∧
    (b.counter_ = 0 → b.request = (false, b)) := by
  constructor
  · intro hpos
    have hne : b.counter_ ≠ 0 := by omega
    simp [TokenBucket.request, hne]
  · intro hz
    simp [TokenBucket.request, hz]

theorem C1_request_basic_witness :
    0 < (TokenBucket.new 2 1).max_counter_ ∧
    0 ≤ (TokenBucket.new 2 1).counter_ ∧
    (TokenBucket.new 2 1).counter_ ≤ (TokenBucket.new 2 1).max_counter_ ∧
    ((0 < (TokenBucket.new 2 1).counter_ →
      (TokenBucket.new 2 1).request
        = (true, { TokenBucket.new 2 1 with
            counter_ := (TokenBucket.new 2 1).counter_ - 1 })) ∧
     ((TokenBucket.new 2 1).counter_ = 0 →
      (TokenBucket.new 2 1).request = (false, TokenBucket.new 2 1))) :=
  ⟨by decide, by decide, by decide,
    C1_request_basic (TokenBucket.new 2 1) (by decide) (by decide) (by decide)⟩

/-- C2: Starting from a freshly constructed bucket of capacity `n > 0`, any
sequence of requests with no intervening refill yields at most `n` results
`true`, and the first `n + 1` immediate requests return `n` times `true`
followed by `false`. -/
theorem C2_capacity_bound (n : Nat) (hn : 0 < n) (f : Int) (k : Nat) :
    ((TokenBucket.new (n : Int) f).requestN k).1.count true ≤ n ∧
    ((TokenBucket.new (n : Int) f).requestN (n + 1)).1
      = List.replicate n true ++ [false] := by
  constructor
  · have h := TokenBucket.count_true_requestN_le k (TokenBucket.new (n : Int) f)
      (Int.natCast_nonneg n)
    have h' : ((((TokenBucket.new (n : Int) f).requestN k).1.count true : Nat) : Int)
        ≤ (n : Int) := h
    exact_mod_cast h'
  · exact congrArg Prod.fst
      (TokenBucket.exhaust_pattern (TokenBucket.new (n : Int) f) n rfl)

theorem C2_capacity_bound_witness :
    0 < 3 ∧
    (((TokenBucket.new ((3 : Nat) : Int) 1).requestN 5).1.count true ≤ 3 ∧
     ((TokenBucket.new ((3 : Nat) : Int) 1).requestN 4).1
       = List.replicate 3 true ++ [false]) :=
  ⟨by decide, C2_capacity_bound 3 (by decide) 1 5⟩

/-- C3 counterexample: constructing with the non-positive capacity `-1`
does not fail: it succeeds, initializes every field, and yields a usable
limiter whose first request even returns `true`. -/
theorem C3_counterexample :
    TokenBucket.new (-1) 1
      = { max_counter_ := -1, counter_ := -1,
          refillFrequencySeconds := 1, exit_ := false } ∧
    ((TokenBucket.new (-1) 1).request).1 = true := by
  decide

/-- C3 (amended): construction never rejects its arguments; for every pair
`(size, refillFrequencySeconds)`, non-positive values included, the
constructor succeeds and initializes `max_counter_` and `counter_` to `size`
with the stop flag clear. -/
theorem C3_no_validation (size f : Int) :
    TokenBucket.new size f
      = { max_counter_ := size, counter_ := size,
          refillFrequencySeconds := f, exit_ := false } :=
  rfl

/-- C4: A bucket constructed with positive capacity has its count initialized
to the capacity and satisfies `0 ≤ counter_ ≤ max_counter_` after
construction; the invariant is preserved by every `request` call and by every
refill iteration. -/
theorem C4_invariant (n f : Int) (b : TokenBucket) (hn : 0 < n) (hb : b.Inv) :
    (TokenBucket.new n f).counter_ = n ∧ (TokenBucket.new n f).Inv ∧
    (b.request.2).Inv ∧ b.refillStep.elim True TokenBucket.Inv := by
  obtain ⟨h0, h1⟩ := hb
  refine ⟨rfl, ⟨hn.le, le_rfl⟩, ?_, ?_⟩
  · unfold TokenBucket.request
    split
    next hc =>
      show 0 ≤ b.counter_ - 1 ∧ b.counter_ - 1 ≤ b.max_counter_
      omega
    next hc =>
      exact ⟨h0, h1⟩
  · unfold TokenBucket.refillStep
    split
    · trivial
    · show 0 ≤ b.max_counter_ ∧ b.max_counter_ ≤ b.max_counter_
      omega

theorem C4_invariant_witness :
    (0 : Int) < 2 ∧ (TokenBucket.new 2 1).Inv ∧
    ((TokenBucket.new 2 1).counter_ = 2 ∧ (TokenBucket.new 2 1).Inv ∧
     ((TokenBucket.new 2 1).request.2).Inv ∧
     (TokenBucket.new 2 1).refillStep.elim True TokenBucket.Inv) :=
  ⟨by decide, by decide,
    C4_invariant 2 1 (TokenBucket.new 2 1) (by decide) (by decide)⟩

/-- C5: A refill iteration that observes no stop signal sets the token count
to exactly the capacity — a reset to full, not an increment — whatever the
current count. -/
theorem C5_refill_resets (b : TokenBucket) (h : b.exit_ = false) :
    b.refillStep = some { b with counter_ := b.max_counter_ } := by
  simp [TokenBucket.refillStep, h]

theorem C5_refill_resets_witness :
    (⟨3, 1, 1, false⟩ : TokenBucket).exit_ = false ∧
    (⟨3, 1, 1, false⟩ : TokenBucket).refillStep
      = some (⟨3, 3, 1, false⟩ : TokenBucket) :=
  ⟨rfl, C5_refill_resets ⟨3, 1, 1, false⟩ rfl⟩

/-- C6: After a bucket of capacity `n > 0` is exhausted (`n` grants followed
by a rejection) and one refill iteration occurs, the next `n` requests again
all succeed and the `(n+1)`-th is again rejected. -/
theorem C6_refill_restores (n : Nat) (hn : 0 < n) :
    ((TokenBucket.new (n : Int) 1).requestN (n + 1)).1
      = List.replicate n true ++ [false] ∧
    (((TokenBucket.new (n : Int) 1).requestN (n + 1)).2.refillStep).elim False
      (fun b2 => (b2.requestN (n + 1)).1 = List.replicate n true ++ [false]) := by
  have h1 := TokenBucket.exhaust_pattern (TokenBucket.new (n : Int) 1) n rfl
  refine ⟨congrArg Prod.fst h1, ?_⟩
  have h2 : ((TokenBucket.new (n : Int) 1).requestN (n + 1)).2.refillStep
      = some (TokenBucket.new (n : Int) 1) := by
    rw [h1]
    rfl
  rw [h2]
  show ((TokenBucket.new (n : Int) 1).requestN (n + 1)).1
      = List.replicate n true ++ [false]
  exact congrArg Prod.fst h1

theorem C6_refill_restores_witness :
    0 < 3 ∧
    (((TokenBucket.new ((3 : Nat) : Int) 1).requestN 4).1
       = List.replicate 3 true ++ [false] ∧
     (((TokenBucket.new ((3 : Nat) : Int) 1).requestN 4).2.refillStep).elim False
       (fun b2 => (b2.requestN 4).1 = List.replicate 3 true ++ [false])) :=
  ⟨by decide, C6_refill_restores 3 (by decide)⟩

/-- C7: Once the stop flag is set — as the destructor does via `signalStop` —
a refill iteration observes it and terminates without writing the token
count: no refill occurs after shutdown. -/
theorem C7_no_refill_after_stop (b : TokenBucket) (h : b.exit_ = true) :
    b.refillStep = none ∧ b.signalStop.refillStep = none ∧
    b.signalStop.counter_ = b.counter_ := by
  refine ⟨by simp [TokenBucket.refillStep, h], rfl, rfl⟩

theorem C7_no_refill_after_stop_witness :
    (⟨3, 2, 1, true⟩ : TokenBucket).exit_ = true ∧
    ((⟨3, 2, 1, true⟩ : TokenBucket).refillStep = none ∧
     (⟨3, 2, 1, true⟩ : TokenBucket).signalStop.refillStep = none ∧
     (⟨3, 2, 1, true⟩ : TokenBucket).signalStop.counter_
       = (⟨3, 2, 1, true⟩ : TokenBucket).counter_) :=
  ⟨rfl, C7_no_refill_after_stop ⟨3, 2, 1, true⟩ rfl⟩

/-- C8: The capacity and the refill frequency are fixed: `request` changes at
most `counter_` (leaving `max_counter_`, `refillFrequencySeconds` and `exit_`
untouched), and a refill iteration likewise changes at most `counter_`. -/
theorem C8_frame (b : TokenBucket) :
    b.request.2.max_counter_ = b.max_counter_ ∧
    b.request.2.refillFrequencySeconds = b.refillFrequencySeconds ∧
    b.request.2.exit_ = b.exit_ ∧
    b.refillStep.elim True (fun b2 =>
      b2.max_counter_ = b.max_counter_ ∧
      b2.refillFrequencySeconds = b.refillFrequencySeconds ∧
      b2.exit_ = b.exit_) := by
  by_cases hc : b.counter_ = 0 <;> by_cases he : b.exit_ = true <;>
    simp [TokenBucket.request, TokenBucket.refillStep, hc, he]

/-- C9: With a negative capacity, construction succeeds and — because the
success test is `counter_ != 0` rather than `counter_ > 0` — every request
returns `true` while the count decreases without bound below zero: the
limiter never rejects a request. -/
theorem C9_negative_capacity (size f : Int) (hneg : size < 0) (k : Nat) :
    (TokenBucket.new size f).counter_ = size ∧
    ((TokenBucket.new size f).requestN k).1 = List.replicate k true ∧
    ((TokenBucket.new size f).requestN k).2.counter_ = size - k := by
  have h := TokenBucket.requestN_of_neg k (TokenBucket.new size f) hneg
  exact ⟨rfl, by rw [h], by rw [h]; rfl⟩

theorem C9_negative_capacity_witness :
    (-1 : Int) < 0 ∧
    ((TokenBucket.new (-1) 1).counter_ = -1 ∧
     ((TokenBucket.new (-1) 1).requestN 3).1 = List.replicate 3 true ∧
     ((TokenBucket.new (-1) 1).requestN 3).2.counter_
       = (-1 : Int) - ((3 : Nat) : Int)) :=
  ⟨by decide, C9_negative_capacity (-1) 1 (by decide) 3⟩

/-- C10: With capacity exactly zero, construction succeeds, every request
returns `false` and leaves the state unchanged at zero tokens, and every
refill iteration resets the count to zero, so the limiter permanently rejects
all requests without error. -/
theorem C10_zero_capacity (f : Int) (k : Nat) :
    (TokenBucket.new 0 f).counter_ = 0 ∧
    ((TokenBucket.new 0 f).requestN k).1 = List.replicate k false ∧
    ((TokenBucket.new 0 f).requestN k).2 = TokenBucket.new 0 f ∧
    (TokenBucket.new 0 f).refillStep = some (TokenBucket.new 0 f) := by
  have h := TokenBucket.requestN_of_zero k (TokenBucket.new 0 f) rfl
  exact ⟨rfl, by rw [h], by rw [h], rfl⟩
